import Mathlib

/-!
Verification of the TibiaAnalyzer-web ingestion/normalization/aggregation core.

The definitions below are a shallow embedding of the Python modules
`ta_core/normalizer.py`, `ta_core/repository.py`, `ta_core/aggregator.py`,
`ta_core/bestiary.py` and `ta_core/services/backup.py`.  Python scalar values
that flow through the normalizer are modelled by the inductive `Value`
(`None`, `int`, `str`); machine floats used by the aggregator are modelled by
exact rationals; fallible Python code (an expression that can raise) returns
`Option`.  External libraries (`dateutil.parser.parse`, `pandas.to_datetime`)
are modelled as function parameters returning `Option Int` (epoch seconds;
`none` meaning the parse raised/was coerced to NaT).
-/

set_option maxRecDepth 10000

namespace TA

/-- Model of a Python scalar value as it appears in an uploaded raw record:
`None`, an `int`, or a `str`. -/
inductive Value where
  | vnull
  | vint (n : Int)
  | vstr (s : String)
deriving DecidableEq, Repr

/-- A raw uploaded record: a JSON object modelled as an association list from
string keys to scalar values (Python dicts have unique keys; lookups take the
first occurrence). -/
abbrev RawRecord := List (String × Value)

/-- Python `str(v)` on the scalar values that occur in records. -/
def pyStr : Value → String
  | .vnull => "None"
  | .vint n => toString n
  | .vstr s => s

/-- Python truthiness of a scalar value (`bool(v)`). -/
def truthy : Value → Bool
  | .vnull => false
  | .vint n => n != 0
  | .vstr s => s != ""

/-- Numeric value of a decimal digit character. -/
def digitVal (c : Char) : Nat := c.toNat - 48

/-- Value of a nonempty list of decimal digits. -/
def natOfDigits (cs : List Char) : Nat :=
  cs.foldl (fun acc c => acc * 10 + digitVal c) 0

/-- Python `str.strip()` on a character list (structural-recursion
replacement for `String.trim`, which the kernel cannot unfold). -/
def pyStripChars (cs : List Char) : List Char :=
  ((cs.dropWhile Char.isWhitespace).reverse.dropWhile Char.isWhitespace).reverse

/-- Python `str.strip()`. -/
def pyStrip (s : String) : String := ⟨pyStripChars s.data⟩

/-- Python `str.lower()` (ASCII, structural). -/
def pyLower (s : String) : String := ⟨s.data.map Char.toLower⟩

/-- Helper for `pyIntDigits?`: consume the remaining characters of a Python
int literal body, where an underscore must be followed by a digit. -/
def pyIntDigitsGo (acc : Nat) : List Char → Option Nat
  | [] => some acc
  | '_' :: rest =>
    match rest with
    | [] => none
    | d :: rest2 => if d.isDigit then pyIntDigitsGo (acc * 10 + digitVal d) rest2 else none
  | c :: rest => if c.isDigit then pyIntDigitsGo (acc * 10 + digitVal c) rest else none

/-- Digit part of a Python decimal int literal: one or more digits with
single underscores allowed between digits. -/
def pyIntDigits? : List Char → Option Nat
  | [] => none
  | c :: rest => if c.isDigit then pyIntDigitsGo (digitVal c) rest else none

/-- Python `int(s)` on a base-10 string: surrounding whitespace stripped, an
optional sign, then digits (with underscores between digits); `none` models a
raised `ValueError`. -/
def pyIntOfString? (s : String) : Option Int :=
  match (pyStrip s).toList with
  | '+' :: rest => (pyIntDigits? rest).map (fun n => (n : Int))
  | '-' :: rest => (pyIntDigits? rest).map (fun n => -(n : Int))
  | cs => (pyIntDigits? cs).map (fun n => (n : Int))

/-- Substitution performed by the `NUM_COMMAS` regex: delete every `,` and `.`. -/
def numCommasSub (s : String) : String :=
  ⟨s.toList.filter (fun c => !(c == ',' || c == '.'))⟩

/-- Deletion of all whitespace (the normalizer's `re.sub(r"\s+", "", s)`). -/
def stripAllWS (s : String) : String :=
  ⟨s.toList.filter (fun c => !c.isWhitespace)⟩

/-- Deletion of every character other than digits and `-`
(the normalizer's `re.sub(r"[^0-9-]", "", s)`). -/
def keepDigitsDash (s : String) : String :=
  ⟨s.toList.filter (fun c => c.isDigit || c == '-')⟩

/-- Embedding of `normalizer._to_int`.  `none` models the one way it can
raise: the cleaned string still fails Python's `int` (e.g. an interior `-`). -/
def to_int (v : Value) : Option Int :=
  match v with
  | .vnull => some 0
  | .vint n => some n
  | .vstr s0 =>
    let s1 := pyStrip s0
    let s2 := numCommasSub s1
    let s3 := stripAllWS s2
    let s4 := keepDigitsDash s3
    if s4 = "" then some 0 else pyIntOfString? s4

/-- Match of the `DUR_HMH` regex `^(\d{1,2}):(\d{2})h$` (case-insensitive on
the trailing `h`), returning the hour and minute groups. -/
def matchDurHMH : List Char → Option (Nat × Nat)
  | [a, ':', c, d, h] =>
    if a.isDigit && c.isDigit && d.isDigit && (h == 'h' || h == 'H') then
      some (digitVal a, digitVal c * 10 + digitVal d)
    else none
  | [a, b, ':', c, d, h] =>
    if a.isDigit && b.isDigit && c.isDigit && d.isDigit && (h == 'h' || h == 'H') then
      some (digitVal a * 10 + digitVal b, digitVal c * 10 + digitVal d)
    else none
  | _ => none

/-- Embedding of `normalizer._duration_to_sec`: `None` gives 0, an int passes
through, a string matching `HH:MMh` gives `HH*3600 + MM*60`, any other string
is parsed by Python `int` with failures degrading to 0. -/
def duration_to_sec (v : Value) : Int :=
  match v with
  | .vnull => 0
  | .vint n => n
  | .vstr _ =>
    let s := pyStrip (pyStr v)
    match matchDurHMH s.toList with
    | some (hh, mm) => (hh : Int) * 3600 + (mm : Int) * 60
    | none => (pyIntOfString? s).getD 0

/-- The normalizer's `REQ_FIELDS` list. -/
def REQ_FIELDS : List String :=
  ["path","session_start","session_end","duration","xp_gain","raw_xp_gain",
   "supplies","loot","vocation","mode","zona","level"]

/-- The normalizer's `ALIASES` table: ordered alias lists per logical field. -/
def ALIASES : List (String × List String) :=
  [("session_start", ["Session start", "session_start", "Start", "start"]),
   ("session_end",   ["Session end", "session_end", "End", "end"]),
   ("duration",      ["Session length", "duration", "Duration", "length"]),
   ("xp_gain",       ["XP Gain", "xp_gain", "XP", "Xp Gain"]),
   ("raw_xp_gain",   ["Raw XP Gain", "raw_xp_gain", "Raw XP"]),
   ("supplies",      ["Supplies", "supplies"]),
   ("loot",          ["Loot", "loot"]),
   ("balance",       ["Balance", "balance"]),
   ("balance_real",  ["Balance Real", "balance_real", "Real Balance"]),
   ("transfer_text", ["Transfer", "transfer", "Party Text", "party_text"]),
   ("vocation",      ["vocation", "Vocation"]),
   ("mode",          ["mode", "Mode"]),
   ("vocation_duo",  ["vocation_duo", "Vocation Duo", "Vocation duo"]),
   ("zona",          ["zona", "Zona", "Zone", "Hunt Place", "Area"]),
   ("path",          ["path", "Path"]),
   ("level",         ["Level", "level"])]

/-- Embedding of `normalizer._first_key`: probe the keys in order and return
the first value present that is neither `None` nor the empty string. -/
def first_key (d : RawRecord) (keys : List String) : Option Value :=
  match keys with
  | [] => none
  | k :: ks =>
    match d.lookup k with
    | some v => if v == .vnull || v == .vstr "" then first_key d ks else some v
    | none => first_key d ks

/-- Embedding of `normalizer._get`: probe the alias list of a logical field
(`ALIASES.get(field, [field])`). -/
def getf (recm : RawRecord) (field : String) : Option Value :=
  first_key recm ((ALIASES.lookup field).getD [field])

/-- Python `str(x or "")` applied to the result of `_get` (so the value is
never the empty string, but may be `None` or falsy like the int 0). -/
def pyOrEmptyStr (v : Option Value) : String :=
  match v with
  | none => ""
  | some v => if truthy v then pyStr v else ""

/-- Match of the level-bucket regex `^(\d+)\s*-(\d+)$`. -/
def parseLevelRange (cs : List Char) : Option (Nat × Nat) :=
  let p1 := cs.span Char.isDigit
  if p1.1 = [] then none
  else
    match p1.2.dropWhile Char.isWhitespace with
    | '-' :: rest2 =>
      let p2 := rest2.span Char.isDigit
      if p2.1 = [] || p2.2 ≠ [] then none else some (natOfDigits p1.1, natOfDigits p2.1)
    | _ => none

/-- The level-bucket computation of `normalize_records` (lines 155-170):
returns `(level_bucket, level_min, level_max)` with `-1` standing for the
Python `None` the row constructor turns into `-1`. -/
def levelInfo (recm : RawRecord) : String × Int × Int :=
  let level_raw := getf recm "level"
  let bucket := pyStrip (pyOrEmptyStr level_raw)
  if bucket = "" then (bucket, -1, -1)
  else
    match parseLevelRange bucket.toList with
    | some (a, b) => (bucket, (a : Int), (b : Int))
    | none =>
      match bucket.toList.filter Char.isDigit with
      | [] => (bucket, -1, -1)
      | ds =>
        let n := natOfDigits ds
        (toString n, (n : Int), (n : Int))

/-- The `duration_sec` computation of `normalize_records` (lines 172-179):
`_duration_to_sec` first; when it yields 0, the difference of the parsed
timestamps (both sides must be truthy and parse, otherwise 0; a parser
exception also degrades to 0).  `pts` models `dateutil.parser.parse` as a
map to epoch seconds, `none` meaning the parse raised. -/
def durationSecOf (pts : String → Option Int) (recm : RawRecord) : Int :=
  let duration := getf recm "duration"
  let session_start := getf recm "session_start"
  let session_end := getf recm "session_end"
  let ds := duration_to_sec (duration.getD .vnull)
  if ds ≠ 0 then ds
  else
    let startAtt : Option (Option Int) :=
      match session_start with
      | none => some none
      | some v =>
        if truthy v then
          match pts (pyStr v) with
          | some t => some (some t)
          | none => none
        else some none
    let endAtt : Option (Option Int) :=
      match session_end with
      | none => some none
      | some v =>
        if truthy v then
          match pts (pyStr v) with
          | some t => some (some t)
          | none => none
        else some none
    match startAtt, endAtt with
    | some (some s), some (some e) => e - s
    | some _, some _ => 0
    | _, _ => 0

/-- A canonical hunt row as built by `normalize_records` (lines 193-212).
The derived `kills_by_monster` column is added to the DataFrame afterwards
from `source_raw` and is referenced by no claim, so it is not a field here;
the numeric/string dtype coercions applied to the DataFrame are the identity
on rows of this shape. -/
structure Row where
  path : String
  session_start : String
  session_end : String
  duration_sec : Int
  xp_gain : Int
  raw_xp_gain : Int
  supplies : Int
  loot : Int
  balance : Int
  vocation : String
  mode : String
  vocation_duo : String
  zona : String
  has_all_meta : Bool
  source_raw : RawRecord
  level_bucket : String
  level_min : Int
  level_max : Int
deriving DecidableEq, Repr

/-- The per-record dict `rec = {k: r.get(k) for k in set().union(r.keys(), REQ_FIELDS)}`:
the record with every missing required field filled in as `None`. -/
def recWithReq (r : RawRecord) : RawRecord :=
  r ++ (REQ_FIELDS.filter (fun k => (r.lookup k).isNone)).map (fun k => (k, Value.vnull))

/-- The duo/team-hunt evidence requirement and completeness flag of
`normalize_records` (lines 186-191).  `xp_gain`/`raw_xp_gain` are ints by
this point, so their `is not None` checks are always true. -/
def hasMetaOf (vocation mode zona : String) (balance_real : Int) (transfer_text : String) : Bool :=
  let has_meta0 := vocation != "" && mode != "" && zona != ""
  if has_meta0 && (pyLower mode == "duo" || pyLower mode == "th") then
    has_meta0 && (balance_real != 0 || transfer_text != "")
  else has_meta0

/-- The free-text transfer notes of a record: `str(_get(rec,"transfer_text") or "").strip()`. -/
def transferTextOf (r : RawRecord) : String :=
  pyStrip (pyOrEmptyStr (getf (recWithReq r) "transfer_text"))

/-- The canonical row built at lines 149-212 of `normalize_records`, given the
six integers already produced by `_to_int` at lines 138-147. -/
def mkRow (pts : String → Option Int) (r : RawRecord)
    (xp_gain raw_xp_gain supplies loot balance0 balance_real : Int) : Row :=
  let recm := recWithReq r
  let session_start := getf recm "session_start"
  let session_end := getf recm "session_end"
  let balance1 := if balance_real != 0 then balance_real else balance0
  let vocation := pyOrEmptyStr (getf recm "vocation")
  let mode := pyOrEmptyStr (getf recm "mode")
  let vocation_duo :=
    match getf recm "vocation_duo" with
    | some v => if truthy v then pyStr v else (if pyLower mode = "solo" then "none" else "")
    | none => if pyLower mode = "solo" then "none" else ""
  let zona := pyOrEmptyStr (getf recm "zona")
  let path := pyOrEmptyStr (getf recm "path")
  let lvl := levelInfo recm
  let duration_sec := durationSecOf pts recm
  let balance := if balance1 = 0 && (loot != 0 || supplies != 0) then loot - supplies else balance1
  let transfer_text := transferTextOf r
  let has_meta := hasMetaOf vocation mode zona balance_real transfer_text
  {
    path := path
    session_start := pyOrEmptyStr session_start
    session_end := pyOrEmptyStr session_end
    duration_sec := duration_sec
    xp_gain := xp_gain
    raw_xp_gain := raw_xp_gain
    supplies := supplies
    loot := loot
    balance := balance
    vocation := vocation
    mode := mode
    vocation_duo := vocation_duo
    zona := zona
    has_all_meta := has_meta
    source_raw := r
    level_bucket := lvl.1
    level_min := lvl.2.1
    level_max := lvl.2.2
  }

/-- The body of the `normalize_records` loop for one raw record (lines
131-212): parse the six integer fields with `_to_int` (lines 138-147;
`none` models an exception propagating out of `normalize_records`), then
build the canonical row. -/
def normalizeRecord (pts : String → Option Int) (r : RawRecord) : Option Row := do
  let recm := recWithReq r
  let xp_gain ← to_int ((getf recm "xp_gain").getD .vnull)
  let raw_xp_gain ← to_int ((getf recm "raw_xp_gain").getD .vnull)
  let supplies ← to_int ((getf recm "supplies").getD .vnull)
  let loot ← to_int ((getf recm "loot").getD .vnull)
  let balance0 ← to_int ((getf recm "balance").getD .vnull)
  let balance_real ← to_int ((getf recm "balance_real").getD .vnull)
  pure (mkRow pts r xp_gain raw_xp_gain supplies loot balance0 balance_real)

/-- The partition test of `normalize_records` line 214: the row goes to the
pending partition iff `not has_meta or not row.zona or row.duration_sec <= 0`. -/
def rowIsPending (row : Row) : Bool :=
  !row.has_all_meta || row.zona == "" || decide (row.duration_sec ≤ 0)

/-- Embedding of `normalizer.normalize_records`: the pair of the processed
and pending partitions, in input order; `none` models a raised exception. -/
def normalize_records (pts : String → Option Int) :
    List RawRecord → Option (List Row × List Row)
  | [] => some ([], [])
  | r :: rest => do
    let row ← normalizeRecord pts r
    let p ← normalize_records pts rest
    if rowIsPending row then pure (p.1, row :: p.2) else pure (row :: p.1, p.2)

section NormalizerLemmas

/-- Inversion of `normalizeRecord`: a produced row is `mkRow` applied to the
six successfully parsed integers. -/
theorem normalizeRecord_inv {pts : String → Option Int} {r : RawRecord} {row : Row}
    (h : normalizeRecord pts r = some row) :
    ∃ xp rxp sup lt b0 br,
      to_int ((getf (recWithReq r) "xp_gain").getD .vnull) = some xp ∧
      to_int ((getf (recWithReq r) "raw_xp_gain").getD .vnull) = some rxp ∧
      to_int ((getf (recWithReq r) "supplies").getD .vnull) = some sup ∧
      to_int ((getf (recWithReq r) "loot").getD .vnull) = some lt ∧
      to_int ((getf (recWithReq r) "balance").getD .vnull) = some b0 ∧
      to_int ((getf (recWithReq r) "balance_real").getD .vnull) = some br ∧
      row = mkRow pts r xp rxp sup lt b0 br := by
  unfold normalizeRecord at h
  simp only [bind, Option.bind_eq_some, pure, Option.some.injEq] at h
  obtain ⟨xp, h1, rxp, h2, sup, h3, lt, h4, b0, h5, br, h6, hrow⟩ := h
  exact ⟨xp, rxp, sup, lt, b0, br, h1, h2, h3, h4, h5, h6, hrow.symm⟩

theorem mkRow_has_all_meta (pts : String → Option Int) (r : RawRecord)
    (a b c d e f : Int) :
    (mkRow pts r a b c d e f).has_all_meta =
      hasMetaOf (pyOrEmptyStr (getf (recWithReq r) "vocation"))
        (pyOrEmptyStr (getf (recWithReq r) "mode"))
        (pyOrEmptyStr (getf (recWithReq r) "zona")) f (transferTextOf r) := rfl

theorem mkRow_vocation (pts : String → Option Int) (r : RawRecord) (a b c d e f : Int) :
    (mkRow pts r a b c d e f).vocation = pyOrEmptyStr (getf (recWithReq r) "vocation") := rfl

theorem mkRow_mode (pts : String → Option Int) (r : RawRecord) (a b c d e f : Int) :
    (mkRow pts r a b c d e f).mode = pyOrEmptyStr (getf (recWithReq r) "mode") := rfl

theorem mkRow_zona (pts : String → Option Int) (r : RawRecord) (a b c d e f : Int) :
    (mkRow pts r a b c d e f).zona = pyOrEmptyStr (getf (recWithReq r) "zona") := rfl

theorem mkRow_balance (pts : String → Option Int) (r : RawRecord) (a b c d e f : Int) :
    (mkRow pts r a b c d e f).balance =
      (if (if f != 0 then f else e) = 0 && (d != 0 || c != 0) then d - c
       else if f != 0 then f else e) := rfl

/-- The completeness flag, rewritten as one boolean formula: base metadata
present, and evidence required exactly when the lowercased mode is `duo` or `th`. -/
theorem hasMetaOf_eq (voc mode zona : String) (br : Int) (tt : String) :
    hasMetaOf voc mode zona br tt =
      (voc != "" && mode != "" && zona != "" &&
        (!(pyLower mode == "duo" || pyLower mode == "th") || (br != 0 || tt != ""))) := by
  unfold hasMetaOf
  cases h1 : (voc != "") <;> cases h2 : (mode != "") <;> cases h3 : (zona != "") <;>
    cases h4 : (pyLower mode == "duo" || pyLower mode == "th") <;>
      simp [h1, h2, h3, h4]

theorem hasMetaOf_zona_empty (voc mode : String) (br : Int) (tt : String) :
    hasMetaOf voc mode "" br tt = false := by
  rw [hasMetaOf_eq]; simp

/-- A normalized row with an empty zone never carries the completeness flag. -/
theorem normalizeRecord_zona_empty {pts : String → Option Int} {r : RawRecord} {row : Row}
    (h : normalizeRecord pts r = some row) (hz : row.zona = "") :
    row.has_all_meta = false := by
  obtain ⟨xp, rxp, sup, lt, b0, br, _, _, _, _, _, _, hrow⟩ := normalizeRecord_inv h
  subst hrow
  rw [mkRow_zona] at hz
  rw [mkRow_has_all_meta, hz]
  exact hasMetaOf_zona_empty _ _ _ _

end NormalizerLemmas

/-- A timestamp parser that always raises, for concrete inputs that carry no
parseable timestamps. -/
def ptsNone : String → Option Int := fun _ => none

/-- A record with full metadata (vocation, mode, zone, both xp values) but no
duration information whatsoever. -/
def cexRecC1 : RawRecord :=
  [("vocation", .vstr "Knight"), ("mode", .vstr "Solo"), ("zona", .vstr "Library"),
   ("XP Gain", .vint 100), ("Raw XP Gain", .vint 120)]

/-- C1: as frozen the claim is false: a row can have `has_all_meta == True`
and still land in the pending partition.  `cexRecC1` has vocation, mode, zone
and both xp values (so `has_all_meta` is computed `True`), but no duration
and no parseable timestamps, so `duration_sec == 0` sends it to pending:
`normalize_records` returns an empty processed partition and a pending
partition holding exactly one row whose `has_all_meta` flag is `true`. -/
theorem C1_partition_counterexample :
    (normalize_records ptsNone [cexRecC1]).map
      (fun p => (p.1.length, p.2.map Row.has_all_meta)) = some (0, [true]) := by
  decide

/-- C1 (amended): rows in the processed partition are exactly those with
`has_all_meta == True`, a non-empty `zona` and `duration_sec > 0`; every
pending row has `has_all_meta == False` or a non-positive `duration_sec`
(an empty `zona` already forces `has_all_meta == False`).  Membership is
thereby a pure function of the row's canonical fields. -/
theorem C1_partition_amended (pts : String → Option Int) (rs : List RawRecord)
    (proc pend : List Row) (h : normalize_records pts rs = some (proc, pend)) :
    (∀ row ∈ proc, row.has_all_meta = true ∧ row.zona ≠ "" ∧ 0 < row.duration_sec) ∧
    (∀ row ∈ pend, row.has_all_meta = false ∨ row.duration_sec ≤ 0) := by
  induction rs generalizing proc pend with
  | nil =>
    simp only [normalize_records, Option.some.injEq, Prod.mk.injEq] at h
    obtain ⟨h1, h2⟩ := h
    subst h1; subst h2
    simp
  | cons r rest ih =>
    unfold normalize_records at h
    simp only [bind, Option.bind_eq_some] at h
    obtain ⟨row, hrow, p, hp, hfin⟩ := h
    have ihp := ih p.1 p.2 (by rw [hp])
    cases hpend : rowIsPending row with
    | true =>
      simp [hpend, pure] at hfin
      obtain ⟨hproc, hpend2⟩ := hfin
      subst hproc; subst hpend2
      refine ⟨ihp.1, ?_⟩
      intro row2 hmem
      rcases List.mem_cons.mp hmem with hEq | hmem2
      · subst hEq
        unfold rowIsPending at hpend
        simp only [Bool.or_eq_true, Bool.not_eq_eq_eq_not, Bool.not_true, beq_iff_eq,
          decide_eq_true_eq] at hpend
        rcases hpend with (hmeta | hz) | hdur
        · exact Or.inl hmeta
        · exact Or.inl (normalizeRecord_zona_empty hrow hz)
        · exact Or.inr hdur
      · exact ihp.2 row2 hmem2
    | false =>
      simp [hpend, pure] at hfin
      obtain ⟨hproc, hpend2⟩ := hfin
      subst hproc; subst hpend2
      refine ⟨?_, ihp.2⟩
      intro row2 hmem
      rcases List.mem_cons.mp hmem with hEq | hmem2
      · subst hEq
        unfold rowIsPending at hpend
        simp only [Bool.or_eq_false_iff, Bool.not_eq_false', beq_eq_false_iff_ne, ne_eq,
          decide_eq_false_iff_not, not_le] at hpend
        exact ⟨hpend.1.1, hpend.1.2, hpend.2⟩
      · exact ihp.1 row2 hmem2

/-- One processed record: full metadata and a one-hour duration. -/
def recProcW : RawRecord :=
  [("vocation", .vstr "Druid"), ("mode", .vstr "Solo"), ("zona", .vstr "Cobras"),
   ("XP Gain", .vint 500), ("Raw XP Gain", .vint 600), ("duration", .vint 3600)]

/-- One pending record: the zone is missing. -/
def recPendW : RawRecord :=
  [("vocation", .vstr "Druid"), ("mode", .vstr "Solo"),
   ("XP Gain", .vint 500), ("Raw XP Gain", .vint 600), ("duration", .vint 3600)]

/-- The partitions `normalize_records` produces for the two witness records. -/
def normW : List Row × List Row :=
  (normalize_records ptsNone [recProcW, recPendW]).getD ([], [])

/-- Witness for `C1_partition_amended` at a concrete two-record input. -/
theorem C1_partition_witness :
    (∀ row ∈ normW.1, row.has_all_meta = true ∧ row.zona ≠ "" ∧ 0 < row.duration_sec) ∧
    (∀ row ∈ normW.2, row.has_all_meta = false ∨ row.duration_sec ≤ 0) :=
  C1_partition_amended ptsNone [recProcW, recPendW] normW.1 normW.2 (by decide)

/-- C3: as frozen the claim is false: `_duration_to_sec` recognizes neither
the `<H>h <M>min` nor the `<M>min` form (both degrade to 0, not 3720), and a
negative integer input passes through, so the result is not always
non-negative. -/
theorem C3_duration_counterexample :
    duration_to_sec (.vstr "1h 2min") ≠ 3720 ∧ duration_to_sec (.vstr "1h 2min") = 0 ∧
    duration_to_sec (.vstr "62min") ≠ 3720 ∧ duration_to_sec (.vstr "62min") = 0 ∧
    duration_to_sec (.vint (-5)) < 0 := by
  decide

/-- C3 (amended): the duration parser never raises; an already-integer value
passes through unchanged (sign included, so the result can be negative),
`HH:MMh` strings yield `HH*3600 + MM*60` (so `"01:22h"` gives 4920), any
other string is parsed as a plain decimal integer and otherwise degrades to 0
(so `"1h 2min"` and `"62min"` give 0, as does `None`); and inside
`normalize_records` the `session_end - session_start` difference is used
exactly when the formatted duration gave 0 and both timestamps are truthy
and parse — even when the difference is not positive. -/
theorem C3_duration_amended :
    (∀ n : Int, duration_to_sec (.vint n) = n) ∧
    duration_to_sec .vnull = 0 ∧
    duration_to_sec (.vstr "01:22h") = 4920 ∧
    duration_to_sec (.vstr "1h 2min") = 0 ∧
    duration_to_sec (.vstr "62min") = 0 ∧
    (∀ s : String, matchDurHMH (pyStrip s).toList = none →
      duration_to_sec (.vstr s) = (pyIntOfString? (pyStrip s)).getD 0) ∧
    (∀ (pts : String → Option Int) (recm : RawRecord) (sv ev : Value) (s e : Int),
      duration_to_sec ((getf recm "duration").getD .vnull) = 0 →
      getf recm "session_start" = some sv → truthy sv = true → pts (pyStr sv) = some s →
      getf recm "session_end" = some ev → truthy ev = true → pts (pyStr ev) = some e →
      durationSecOf pts recm = e - s) := by
  refine ⟨fun n => rfl, rfl, by decide, by decide, by decide, ?_, ?_⟩
  · intro s hm
    unfold duration_to_sec
    simp only [pyStr]
    rw [hm]
  · intro pts recm sv ev s e hdur hsv htsv hpts hev htev hpte
    unfold durationSecOf
    simp only [hdur, hsv, hev, htsv, hpts, htev, hpte, if_true, ne_eq]
    simp

/-- A record carrying only a session start and end, for the timestamp
fallback of the duration computation. -/
def recC3w : RawRecord := [("Session start", .vstr "S"), ("Session end", .vstr "E")]

/-- A timestamp parser for `recC3w` whose end precedes its start. -/
def ptsC3w : String → Option Int :=
  fun s => if s = "S" then some 100 else if s = "E" then some 40 else none

/-- Witness for `C3_duration_amended`: the integer pass-through at -7, and
the timestamp fallback producing a negative duration on `recC3w`. -/
theorem C3_duration_witness :
    duration_to_sec (.vint (-7)) = -7 ∧ durationSecOf ptsC3w recC3w = -60 := by
  constructor
  · exact C3_duration_amended.1 (-7)
  · have h := C3_duration_amended.2.2.2.2.2.2 ptsC3w recC3w (.vstr "S") (.vstr "E") 100 40
      (by decide) (by decide) (by decide) (by decide) (by decide) (by decide) (by decide)
    rw [h]
    decide

/-- A multi-participant record spelled "Team Hunt", with full metadata and a
duration but no `balance_real` and no transfer notes. -/
def cexRecC4 : RawRecord :=
  [("vocation", .vstr "EK"), ("mode", .vstr "Team Hunt"), ("zona", .vstr "Z"),
   ("XP Gain", .vint 1), ("Raw XP Gain", .vint 1), ("duration", .vint 3600)]

/-- C4: as frozen the claim is false: the code tests
`mode.lower() in ("duo", "th")`, so the spelled-out mode "team hunt" is NOT
treated as multi-participant.  `cexRecC4` has mode "Team Hunt" and carries
neither a `balance_real` value nor transfer notes, yet it is classified
processed with `has_all_meta == True`. -/
theorem C4_multiparty_counterexample :
    (normalize_records ptsNone [cexRecC4]).map
      (fun p => (p.1.map (fun row => (row.mode, row.has_all_meta)), p.2.length)) =
    some ([("Team Hunt", true)], 0) := by
  decide

/-- C4 (amended): the reconciliation-evidence requirement applies exactly
when the lowercased mode is the literal "duo" or "th"; any other mode
(including "team hunt" spelled out) needs no evidence.  The completeness
flag equals: non-empty vocation, mode and zona, and — only for lowercased
mode "duo" or "th" — a nonzero `balance_real` or non-empty transfer notes. -/
theorem C4_multiparty_amended (pts : String → Option Int) (r : RawRecord) (row : Row)
    (br : Int) (h : normalizeRecord pts r = some row)
    (hbr : to_int ((getf (recWithReq r) "balance_real").getD .vnull) = some br) :
    row.has_all_meta =
      (row.vocation != "" && row.mode != "" && row.zona != "" &&
        (!(pyLower row.mode == "duo" || pyLower row.mode == "th") ||
          (br != 0 || transferTextOf r != ""))) := by
  obtain ⟨xp, rxp, sup, lt, b0, br', _, _, _, _, _, h6, hrow⟩ := normalizeRecord_inv h
  have hbr' : br' = br := by
    rw [h6] at hbr
    exact Option.some.inj hbr
  subst hbr'
  subst hrow
  rw [mkRow_has_all_meta, mkRow_vocation, mkRow_mode, mkRow_zona, hasMetaOf_eq]

/-- A duo-mode record whose only reconciliation evidence is a real balance. -/
def recC4w : RawRecord :=
  [("vocation", .vstr "ED"), ("mode", .vstr "Duo"), ("zona", .vstr "Soulwar"),
   ("XP Gain", .vint 9), ("Raw XP Gain", .vint 9), ("duration", .vint 60),
   ("Balance Real", .vint 12345)]

/-- The row `normalize_records` produces for `recC4w`. -/
def rowC4w : Row := (mkRow ptsNone recC4w 9 9 0 0 0 12345)

/-- Witness for `C4_multiparty_amended` on the duo record `recC4w`: the flag
evaluates to true because the real balance is nonzero. -/
theorem C4_multiparty_witness :
    rowC4w.has_all_meta =
      (rowC4w.vocation != "" && rowC4w.mode != "" && rowC4w.zona != "" &&
        (!(pyLower rowC4w.mode == "duo" || pyLower rowC4w.mode == "th") ||
          ((12345 : Int) != 0 || transferTextOf recC4w != ""))) :=
  C4_multiparty_amended ptsNone recC4w rowC4w 12345 (by decide) (by decide)

/-- C10 (confirmed): the balance of a canonical row is derived: a nonzero
parsed `balance_real` replaces the parsed raw balance, and when the balance
is still 0 while loot or supplies is nonzero it is recomputed as
`loot - supplies` (so the stored balance is not always the parsed raw
balance value). -/
theorem C10_balance_derivation (pts : String → Option Int) (r : RawRecord) (row : Row)
    (sup lt b0 br : Int) (h : normalizeRecord pts r = some row)
    (hsup : to_int ((getf (recWithReq r) "supplies").getD .vnull) = some sup)
    (hlt : to_int ((getf (recWithReq r) "loot").getD .vnull) = some lt)
    (hb0 : to_int ((getf (recWithReq r) "balance").getD .vnull) = some b0)
    (hbr : to_int ((getf (recWithReq r) "balance_real").getD .vnull) = some br) :
    row.balance =
      (if (if br != 0 then br else b0) = 0 && (lt != 0 || sup != 0) then lt - sup
       else if br != 0 then br else b0) := by
  obtain ⟨xp', rxp', sup', lt', b0', br', _, _, h3, h4, h5, h6, hrow⟩ := normalizeRecord_inv h
  have hsup' : sup' = sup := by rw [h3] at hsup; exact Option.some.inj hsup
  have hlt' : lt' = lt := by rw [h4] at hlt; exact Option.some.inj hlt
  have hb0' : b0' = b0 := by rw [h5] at hb0; exact Option.some.inj hb0
  have hbr' : br' = br := by rw [h6] at hbr; exact Option.some.inj hbr
  subst hsup' hlt' hb0' hbr'
  subst hrow
  rw [mkRow_balance]

/-- A record whose raw balance parses to 0 while loot and supplies are
nonzero: the derived balance is loot minus supplies. -/
def recC10w : RawRecord :=
  [("Balance", .vint 0), ("Loot", .vint 1000), ("Supplies", .vint 300)]

/-- The row `normalize_records` produces for `recC10w`. -/
def rowC10w : Row := mkRow ptsNone recC10w 0 0 300 1000 0 0

/-- Witness for `C10_balance_derivation`: on `recC10w` the derivation fires
and the stored balance is 700, not the parsed raw balance 0. -/
theorem C10_balance_witness :
    rowC10w.balance =
      (if (if (0 : Int) != 0 then (0 : Int) else 0) = 0 && ((1000 : Int) != 0 || (300 : Int) != 0)
       then (1000 : Int) - 300 else if (0 : Int) != 0 then (0 : Int) else 0) :=
  C10_balance_derivation ptsNone recC10w rowC10w 300 1000 0 0
    (by decide) (by decide) (by decide) (by decide) (by decide)

/-! Embedding of `ta_core/aggregator.py`.  DataFrame float arithmetic is
modelled by exact rationals. -/

/-- Hours of one row: `duration_sec / 3600.0` (line 230). -/
def rowHours (r : Row) : ℚ := (r.duration_sec : ℚ) / 3600

/-- The rows of one zone group (`df.groupby("zona")`). -/
def zoneGroup (rows : List Row) (z : String) : List Row :=
  rows.filter (fun r => r.zona == z)

/-- Embedding of the aggregator's `_safe_div`: quotient when the denominator
is positive, otherwise 0. -/
def safeDiv (num den : ℚ) : ℚ := if 0 < den then num / den else 0

/-- Round half to even of a rational to an integer, the behaviour of Python's
builtin `round` (modelled on exact values; the binary-float representation
drift of CPython floats is outside the model). -/
def roundHalfEven (x : ℚ) : Int :=
  let fl := ⌊x⌋
  let diff := x - fl
  if diff < 1/2 then fl
  else if 1/2 < diff then fl + 1
  else if fl % 2 = 0 then fl else fl + 1

/-- Python `round(x, nd)` for a non-negative `nd`. -/
def pyRound (nd : Nat) (x : ℚ) : ℚ :=
  let p : ℚ := (10 : ℚ) ^ nd
  (roundHalfEven (x * p) : ℚ) / p

/-- An output row of `aggregate_by_zone`, carrying the renamed columns. -/
structure ZRow where
  zonaOut : String
  hunts : Nat
  horas : ℚ
  xp_gain_per_h : ℚ
  raw_xp_gain_per_h : ℚ
  supplies_per_h : ℚ
  loot_per_h : ℚ
  balance_per_h : ℚ
deriving DecidableEq, Repr

/-- One zone group's aggregate (the `groupby(...).agg(...)` sums of lines
234-242 followed by the `_safe_div` rate columns of lines 250-254).
`hunts` counts the `path` column, which is never null on these rows. -/
def groupAgg (rows : List Row) (z : String) : ZRow :=
  let g := zoneGroup rows z
  let hours_total := (g.map rowHours).sum
  { zonaOut := z
    hunts := g.length
    horas := hours_total
    xp_gain_per_h := safeDiv (g.map (fun r => (r.xp_gain : ℚ))).sum hours_total
    raw_xp_gain_per_h := safeDiv (g.map (fun r => (r.raw_xp_gain : ℚ))).sum hours_total
    supplies_per_h := safeDiv (g.map (fun r => (r.supplies : ℚ))).sum hours_total
    loot_per_h := safeDiv (g.map (fun r => (r.loot : ℚ))).sum hours_total
    balance_per_h := safeDiv (g.map (fun r => (r.balance : ℚ))).sum hours_total }

/-- Ascending insertion of a string (for the sorted group keys of pandas
`groupby(sort=True)`). -/
def insertStrAsc (x : String) : List String → List String
  | [] => [x]
  | y :: ys => if x < y then x :: y :: ys else y :: insertStrAsc x ys

/-- Ascending string sort. -/
def sortStrAsc : List String → List String
  | [] => []
  | x :: xs => insertStrAsc x (sortStrAsc xs)

/-- The group keys of `df.groupby("zona")`: the distinct zone names in
ascending order. -/
def sortedZonas (rows : List Row) : List String :=
  sortStrAsc (rows.map Row.zona).dedup

/-- Stable descending insertion by `balance_per_h` (an earlier element stays
in front of later elements with an equal key). -/
def insertByBalance (x : ZRow) : List ZRow → List ZRow
  | [] => [x]
  | y :: ys => if y.balance_per_h ≤ x.balance_per_h then x :: y :: ys else y :: insertByBalance x ys

/-- Stable descending sort by `balance_per_h` (the `sort_values(...,
ascending=False, kind="stable")` of line 268). -/
def sortByBalanceDesc : List ZRow → List ZRow
  | [] => []
  | x :: xs => insertByBalance x (sortByBalanceDesc xs)

/-- The two-decimal rounding applied to `Horas` and the five rate columns
(lines 270-271); applied after the sort. -/
def roundZRow (r : ZRow) : ZRow :=
  { r with
    horas := pyRound 2 r.horas
    xp_gain_per_h := pyRound 2 r.xp_gain_per_h
    raw_xp_gain_per_h := pyRound 2 r.raw_xp_gain_per_h
    supplies_per_h := pyRound 2 r.supplies_per_h
    loot_per_h := pyRound 2 r.loot_per_h
    balance_per_h := pyRound 2 r.balance_per_h }

/-- The output column set, identical for the empty-input early return (lines
221-224) and the populated rename (lines 256-268). -/
def aggCols : List String :=
  ["Zona", "Hunts", "Horas", "XP Gain (media/h)", "Raw XP Gain (media/h)",
   "Supplies (media/h)", "Loot (media/h)", "Balance (media/h)"]

/-- An output table: its column set and its rows. -/
structure AggTable where
  cols : List String
  rows : List ZRow
deriving DecidableEq, Repr

/-- Embedding of `aggregator.aggregate_by_zone`; the `Option` input models
the `df is None` case. -/
def aggregate_by_zone (df : Option (List Row)) : AggTable :=
  match df with
  | none => ⟨aggCols, []⟩
  | some rows =>
    if rows.isEmpty then ⟨aggCols, []⟩
    else
      let grp := (sortedZonas rows).map (groupAgg rows)
      ⟨aggCols, (sortByBalanceDesc grp).map roundZRow⟩

section AggregatorLemmas

theorem mem_insertStrAsc {a x : String} {l : List String} :
    a ∈ insertStrAsc x l ↔ a = x ∨ a ∈ l := by
  induction l with
  | nil => simp [insertStrAsc]
  | cons y ys ih =>
    unfold insertStrAsc
    split
    · simp
    · simp [ih]
      tauto

theorem mem_sortStrAsc {a : String} {l : List String} :
    a ∈ sortStrAsc l ↔ a ∈ l := by
  induction l with
  | nil => simp [sortStrAsc]
  | cons y ys ih => simp [sortStrAsc, mem_insertStrAsc, ih]

theorem mem_insertByBalance {a x : ZRow} {l : List ZRow} :
    a ∈ insertByBalance x l ↔ a = x ∨ a ∈ l := by
  induction l with
  | nil => simp [insertByBalance]
  | cons y ys ih =>
    unfold insertByBalance
    split
    · simp
    · simp [ih]
      tauto

theorem mem_sortByBalanceDesc {a : ZRow} {l : List ZRow} :
    a ∈ sortByBalanceDesc l ↔ a ∈ l := by
  induction l with
  | nil => simp [sortByBalanceDesc]
  | cons y ys ih => simp [sortByBalanceDesc, mem_insertByBalance, ih]

theorem length_insertByBalance (x : ZRow) (l : List ZRow) :
    (insertByBalance x l).length = l.length + 1 := by
  induction l with
  | nil => simp [insertByBalance]
  | cons y ys ih =>
    unfold insertByBalance
    split
    · simp
    · simp [ih]

theorem length_sortByBalanceDesc (l : List ZRow) :
    (sortByBalanceDesc l).length = l.length := by
  induction l with
  | nil => simp [sortByBalanceDesc]
  | cons y ys ih => simp [sortByBalanceDesc, length_insertByBalance, ih]

theorem length_insertStrAsc (x : String) (l : List String) :
    (insertStrAsc x l).length = l.length + 1 := by
  induction l with
  | nil => simp [insertStrAsc]
  | cons y ys ih =>
    unfold insertStrAsc
    split
    · simp
    · simp [ih]

theorem length_sortStrAsc (l : List String) :
    (sortStrAsc l).length = l.length := by
  induction l with
  | nil => simp [sortStrAsc]
  | cons y ys ih => simp [sortStrAsc, length_insertStrAsc, ih]

end AggregatorLemmas

/-- A minimal processed row for concrete aggregation inputs: only the zone,
duration and balance vary. -/
def simpleRow (z : String) (d b : Int) : Row :=
  { path := "p", session_start := "", session_end := "", duration_sec := d,
    xp_gain := 0, raw_xp_gain := 0, supplies := 0, loot := 0, balance := b,
    vocation := "v", mode := "solo", vocation_duo := "none", zona := z,
    has_all_meta := true, source_raw := [], level_bucket := "",
    level_min := -1, level_max := -1 }

/-- C5 (confirmed): missing or empty input yields an empty table that still
carries the full column set; for non-empty input every zone contributes
exactly one output row (one per distinct zone) whose hunt count, total hours
and five per-hour rates are the group sums divided by the group's total
hours — 0 instead of a division error when the total hours are not positive —
rounded to 2 decimals; in particular a zone with two rows of durations
`d1, d2` and balances `b1, b2` reports
`balance_per_h = round2((b1+b2) / ((d1+d2)/3600))`, or 0 when the hours are
not positive. -/
theorem C5_zone_aggregation :
    aggregate_by_zone none = ⟨aggCols, []⟩ ∧
    aggregate_by_zone (some []) = ⟨aggCols, []⟩ ∧
    (∀ (rows : List Row) (z : String), z ∈ rows.map Row.zona →
      roundZRow (groupAgg rows z) ∈ (aggregate_by_zone (some rows)).rows ∧
      (groupAgg rows z).hunts = (zoneGroup rows z).length ∧
      (groupAgg rows z).horas = ((zoneGroup rows z).map rowHours).sum ∧
      (groupAgg rows z).xp_gain_per_h =
        (if 0 < ((zoneGroup rows z).map rowHours).sum then
          ((zoneGroup rows z).map (fun r => (r.xp_gain : ℚ))).sum /
            ((zoneGroup rows z).map rowHours).sum else 0) ∧
      (groupAgg rows z).raw_xp_gain_per_h =
        (if 0 < ((zoneGroup rows z).map rowHours).sum then
          ((zoneGroup rows z).map (fun r => (r.raw_xp_gain : ℚ))).sum /
            ((zoneGroup rows z).map rowHours).sum else 0) ∧
      (groupAgg rows z).supplies_per_h =
        (if 0 < ((zoneGroup rows z).map rowHours).sum then
          ((zoneGroup rows z).map (fun r => (r.supplies : ℚ))).sum /
            ((zoneGroup rows z).map rowHours).sum else 0) ∧
      (groupAgg rows z).loot_per_h =
        (if 0 < ((zoneGroup rows z).map rowHours).sum then
          ((zoneGroup rows z).map (fun r => (r.loot : ℚ))).sum /
            ((zoneGroup rows z).map rowHours).sum else 0) ∧
      (groupAgg rows z).balance_per_h =
        (if 0 < ((zoneGroup rows z).map rowHours).sum then
          ((zoneGroup rows z).map (fun r => (r.balance : ℚ))).sum /
            ((zoneGroup rows z).map rowHours).sum else 0)) ∧
    (∀ rows : List Row, rows ≠ [] →
      (aggregate_by_zone (some rows)).rows.length = (rows.map Row.zona).dedup.length ∧
      (aggregate_by_zone (some rows)).cols = aggCols) ∧
    (∀ (z : String) (d1 d2 b1 b2 : Int),
      (aggregate_by_zone (some [simpleRow z d1 b1, simpleRow z d2 b2])).rows =
        [roundZRow (groupAgg [simpleRow z d1 b1, simpleRow z d2 b2] z)] ∧
      (groupAgg [simpleRow z d1 b1, simpleRow z d2 b2] z).balance_per_h =
        (if 0 < ((d1 : ℚ) + d2) / 3600 then ((b1 : ℚ) + b2) / (((d1 : ℚ) + d2) / 3600)
         else 0)) := by
  refine ⟨rfl, rfl, ?_, ?_, ?_⟩
  · intro rows z hz
    refine ⟨?_, rfl, rfl, rfl, rfl, rfl, rfl, rfl⟩
    have hne : rows.isEmpty = false := by
      cases rows with
      | nil => simp at hz
      | cons a l => rfl
    unfold aggregate_by_zone
    simp only [hne, Bool.false_eq_true, if_false]
    apply List.mem_map_of_mem
    rw [mem_sortByBalanceDesc]
    apply List.mem_map_of_mem
    unfold sortedZonas
    exact mem_sortStrAsc.mpr (List.mem_dedup.mpr hz)
  · intro rows hne
    have hne2 : rows.isEmpty = false := by
      cases rows with
      | nil => exact absurd rfl hne
      | cons a l => rfl
    constructor
    · unfold aggregate_by_zone
      simp only [hne2, Bool.false_eq_true, if_false]
      simp [length_sortByBalanceDesc, sortedZonas, length_sortStrAsc]
    · unfold aggregate_by_zone
      simp [hne2]
  · intro z d1 d2 b1 b2
    constructor
    · have hded : (List.map Row.zona [simpleRow z d1 b1, simpleRow z d2 b2]).dedup = [z] := by
        show ([z, z] : List String).dedup = [z]
        rw [List.dedup_cons_of_mem (by simp)]
        simp
      unfold aggregate_by_zone
      simp only [List.isEmpty_cons, Bool.false_eq_true, if_false]
      unfold sortedZonas
      rw [hded]
      simp [sortStrAsc, insertStrAsc, sortByBalanceDesc, insertByBalance]
    · have hsum : ((d1 : ℚ)) / 3600 + ((d2 : ℚ)) / 3600 = ((d1 : ℚ) + d2) / 3600 := by
        ring
      simp [groupAgg, zoneGroup, simpleRow, rowHours, safeDiv, hsum]

/-- A one-row concrete aggregation input. -/
def rowsC5w : List Row := [simpleRow "A" 3600 100]

/-- Witness for `C5_zone_aggregation`: its per-zone clause applied to the
one-row table `rowsC5w` at zone "A". -/
theorem C5_zone_aggregation_witness :
    roundZRow (groupAgg rowsC5w "A") ∈ (aggregate_by_zone (some rowsC5w)).rows ∧
    (groupAgg rowsC5w "A").balance_per_h =
      (if 0 < ((zoneGroup rowsC5w "A").map rowHours).sum then
        ((zoneGroup rowsC5w "A").map (fun r => (r.balance : ℚ))).sum /
          ((zoneGroup rowsC5w "A").map rowHours).sum else 0) := by
  have h := C5_zone_aggregation.2.2.1 rowsC5w "A" (by decide)
  exact ⟨h.1, h.2.2.2.2.2.2.2⟩

/-! Embedding of the KPH calculator (`aggregator.compute_monsters_kph_for_df`
and its helpers `_row_hours_fallback` / `_parse_session_length`). -/

/-- Whether `pat` begins `cs` (helper for the substring test of Python's
`in` operator on strings). -/
def leadsWith : List Char → List Char → Bool
  | [], _ => true
  | _ :: _, [] => false
  | a :: ps, b :: rest => a == b && leadsWith ps rest

/-- Python `pat in s` on character lists. -/
def hasSub (pat : List Char) : List Char → Bool
  | [] => leadsWith pat []
  | c :: rest => leadsWith pat (c :: rest) || hasSub pat rest

/-- Python `s.replace("min", "")`: delete non-overlapping occurrences
left-to-right. -/
def replaceMin : List Char → List Char
  | 'm' :: 'i' :: 'n' :: rest => replaceMin rest
  | c :: rest => c :: replaceMin rest
  | [] => []

/-- Python `s.split(":", 1)`: the parts before and after the first colon. -/
def splitFirstColon (cs : List Char) : List Char × List Char :=
  match cs.span (fun c => !(c == ':')) with
  | (before, _ :: after) => (before, after)
  | (before, []) => (before, [])

/-- Python `s.split("h")` (split at every occurrence of the character). -/
def splitOnH : List Char → List (List Char)
  | [] => [[]]
  | x :: rest =>
    let r := splitOnH rest
    if x == 'h' then [] :: r
    else
      match r with
      | y :: ys => (x :: y) :: ys
      | [] => [[x]]

/-- Embedding of `aggregator._parse_session_length`: hours parsed from a
`Session length` string; any exception degrades to 0. -/
def parse_session_length (text : String) : ℚ :=
  if text = "" then 0
  else
    let cs := (pyLower ⟨pyStripChars text.toList⟩).toList
    if cs.contains ':' && cs.contains 'h' then
      let p := splitFirstColon cs
      let mmDigits := p.2.filter Char.isDigit
      let mm : Int := natOfDigits (if mmDigits = [] then ['0'] else mmDigits)
      match pyIntOfString? ⟨p.1⟩ with
      | none => 0
      | some hh => max 0 ((hh : ℚ) + (mm : ℚ) / 60)
    else if cs.contains 'h' then
      match splitOnH (replaceMin cs) with
      | [] => 0
      | [p0] =>
        match (if pyStripChars p0 = [] then some (0 : Int) else pyIntOfString? ⟨pyStripChars p0⟩) with
        | none => 0
        | some hv => max 0 ((hv : ℚ) + (0 : ℚ) / 60)
      | p0 :: p1 :: _ =>
        match (if pyStripChars p0 = [] then some (0 : Int) else pyIntOfString? ⟨pyStripChars p0⟩) with
        | none => 0
        | some hv =>
          match (if pyStripChars p1 = [] then some (0 : Int) else pyIntOfString? ⟨pyStripChars p1⟩) with
          | none => 0
          | some mv => max 0 ((hv : ℚ) + (mv : ℚ) / 60)
    else if hasSub ['m', 'i', 'n'] cs then
      let p := pyStripChars (replaceMin cs)
      match (if p = [] then some (0 : Int) else pyIntOfString? ⟨p⟩) with
      | none => 0
      | some mv => max 0 ((mv : ℚ) / 60)
    else 0

/-- A DataFrame row as the KPH calculator sees it.  The numeric duration
columns (`duration_sec` / `Duration Sec` / `duration`) are merged into one
optional rational, `__hours` likewise; the timestamp columns are modelled
after `pd.to_datetime(..., errors="coerce")` as optional epoch seconds; the
kill mapping is the result of `_extract_kills_mapping_from_row` (a Python
dict, so its keys are unique). -/
structure KRow where
  duration_sec : Option ℚ
  hoursCol : Option ℚ
  session_start : Option Int
  session_end : Option Int
  session_length : Option String
  kills : List (String × ℚ)
deriving DecidableEq, Repr

/-- Step 4 of `_row_hours_fallback`: the `Session length` string. -/
def rowHoursStep4 (r : KRow) : ℚ :=
  match r.session_length with
  | some txt =>
    let hrs := parse_session_length txt
    if 0 < hrs then hrs else 0
  | none => 0

/-- Step 3 of `_row_hours_fallback`: positive timestamp difference. -/
def rowHoursStep3 (r : KRow) : ℚ :=
  match r.session_start, r.session_end with
  | some s, some e => if 0 < e - s then (((e - s) : Int) : ℚ) / 3600 else rowHoursStep4 r
  | _, _ => rowHoursStep4 r

/-- Step 2 of `_row_hours_fallback`: a positive `__hours` column. -/
def rowHoursStep2 (r : KRow) : ℚ :=
  match r.hoursCol with
  | some hh => if 0 < hh then hh else rowHoursStep3 r
  | none => rowHoursStep3 r

/-- Embedding of `aggregator._row_hours_fallback`: positive `duration_sec`
first, then `__hours`, then the timestamps, then `Session length`, else 0. -/
def row_hours_fallback (r : KRow) : ℚ :=
  match r.duration_sec with
  | some ds => if 0 < ds then ds / 3600 else rowHoursStep2 r
  | none => rowHoursStep2 r

/-- Python dict update `d[k] = d.get(k, 0.0) + v` on an insertion-ordered
association list. -/
def addQ (k : String) (v : ℚ) : List (String × ℚ) → List (String × ℚ)
  | [] => [(k, v)]
  | (k', v') :: rest => if k' == k then (k', v' + v) :: rest else (k', v') :: addQ k v rest

/-- The two accumulator dicts of `compute_monsters_kph_for_df`. -/
structure KAcc where
  kills_sum : List (String × ℚ)
  hours_sum : List (String × ℚ)
deriving DecidableEq, Repr

/-- The inner loop over one row's kill mapping: pairs with a non-positive
count are skipped, the rest add their count to `kills_sum` and the row's
hours to `hours_sum`. -/
def kphRowFold (hours : ℚ) : List (String × ℚ) → KAcc → KAcc
  | [], acc => acc
  | (m, k) :: rest, acc =>
    if k ≤ 0 then kphRowFold hours rest acc
    else kphRowFold hours rest ⟨addQ m k acc.kills_sum, addQ m hours acc.hours_sum⟩

/-- The outer loop over the rows: rows with non-positive hours contribute
nothing (a row with an empty kill mapping contributes nothing either way). -/
def kphFold : List KRow → KAcc → KAcc
  | [], acc => acc
  | r :: rest, acc =>
    let hours := row_hours_fallback r
    if hours ≤ 0 then kphFold rest acc
    else kphFold rest (kphRowFold hours r.kills acc)

/-- Embedding of `aggregator.compute_monsters_kph_for_df`: the final
monster-to-KPH dict, `kills_sum / hours_sum` rounded to 4 decimals. -/
def compute_monsters_kph_for_df (df : Option (List KRow)) : List (String × ℚ) :=
  match df with
  | none => []
  | some rows =>
    if rows.isEmpty then []
    else
      let acc := kphFold rows ⟨[], []⟩
      acc.kills_sum.map (fun p =>
        let hrs := (acc.hours_sum.lookup p.1).getD 0
        (p.1, if 0 < hrs then pyRound 4 (p.2 / hrs) else 0))

/-- The positive kill counts a row reports for monster `m`, summed. -/
def rowKills (ps : List (String × ℚ)) (m : String) : ℚ :=
  ((ps.filter (fun p => p.1 == m && decide (0 < p.2))).map Prod.snd).sum

/-- Whether a kill mapping reports a positive count for monster `m`. -/
def reportsM (ps : List (String × ℚ)) (m : String) : Bool :=
  ps.any (fun p => p.1 == m && decide (0 < p.2))

/-- Total kills of `m` over the rows with positive hours. -/
def kSum (rows : List KRow) (m : String) : ℚ :=
  (rows.map (fun r => if 0 < row_hours_fallback r then rowKills r.kills m else 0)).sum

/-- Total hours of `m`: only rows with positive hours that report a positive
kill count of `m` contribute their hours. -/
def hSum (rows : List KRow) (m : String) : ℚ :=
  (rows.map (fun r =>
    if 0 < row_hours_fallback r ∧ reportsM r.kills m = true then row_hours_fallback r else 0)).sum

/-- Whether any row contributes to monster `m`. -/
def contrib (rows : List KRow) (m : String) : Bool :=
  rows.any (fun r => decide (0 < row_hours_fallback r) && reportsM r.kills m)

section KphLemmas

theorem lookup_addQ (k : String) (v : ℚ) (l : List (String × ℚ)) (m : String) :
    (addQ k v l).lookup m =
      if m = k then some (((l.lookup k).getD 0) + v) else l.lookup m := by
  induction l with
  | nil =>
    by_cases hmk : m = k
    · subst hmk; simp [addQ, List.lookup]
    · have hb : (m == k) = false := beq_eq_false_iff_ne.mpr hmk
      simp [addQ, List.lookup, hb, hmk]
  | cons p rest ih =>
    obtain ⟨k1, v1⟩ := p
    by_cases hk : k1 = k
    · subst hk
      by_cases hmk : m = k1
      · subst hmk; simp [addQ, List.lookup]
      · have hb : (m == k1) = false := beq_eq_false_iff_ne.mpr hmk
        simp [addQ, List.lookup, hb, hmk]
    · have hbk : (k1 == k) = false := beq_eq_false_iff_ne.mpr hk
      by_cases hmk1 : m = k1
      · subst hmk1
        have hmk : ¬ m = k := hk
        simp [addQ, List.lookup, hbk, hmk]
      · have hb1 : (m == k1) = false := beq_eq_false_iff_ne.mpr hmk1
        by_cases hmk : m = k
        · subst hmk
          have hbk1 : (m == k1) = false := beq_eq_false_iff_ne.mpr hmk1
          have hbk2 : (k1 == m) = false := beq_eq_false_iff_ne.mpr hk
          simp [addQ, List.lookup, hbk, hbk1, hbk2, ih]
        · simp [addQ, List.lookup, hbk, hb1, hmk, ih]

theorem lookup_addQ_none (k : String) (v : ℚ) (l : List (String × ℚ)) (m : String) :
    ((addQ k v l).lookup m = none ↔ l.lookup m = none ∧ m ≠ k) := by
  rw [lookup_addQ]
  split
  · simp_all
  · simp_all

theorem rowKills_of_not_mem {rest : List (String × ℚ)} {m : String}
    (h : m ∉ rest.map Prod.fst) : rowKills rest m = 0 := by
  unfold rowKills
  have hf : rest.filter (fun p => p.1 == m && decide (0 < p.2)) = [] := by
    rw [List.filter_eq_nil_iff]
    intro p hp
    simp only [Bool.and_eq_true, beq_iff_eq, decide_eq_true_eq, not_and]
    intro hpm
    exact absurd (hpm ▸ List.mem_map_of_mem Prod.fst hp) h
  rw [hf]
  simp

theorem reportsM_of_not_mem {rest : List (String × ℚ)} {m : String}
    (h : m ∉ rest.map Prod.fst) : reportsM rest m = false := by
  unfold reportsM
  rw [List.any_eq_false]
  intro p hp
  simp only [Bool.and_eq_true, beq_iff_eq, decide_eq_true_eq, not_and]
  intro hpm
  exact absurd (hpm ▸ List.mem_map_of_mem Prod.fst hp) h

theorem rowKills_cons_self (m : String) (k : ℚ) (rest : List (String × ℚ))
    (hk : 0 < k) : rowKills ((m, k) :: rest) m = k + rowKills rest m := by
  unfold rowKills
  rw [List.filter_cons]
  simp [hk]

theorem rowKills_cons_skip (m m1 : String) (k : ℚ) (rest : List (String × ℚ))
    (h : (m1 == m && decide (0 < k)) = false) :
    rowKills ((m1, k) :: rest) m = rowKills rest m := by
  unfold rowKills
  rw [List.filter_cons, h]
  simp

theorem reportsM_cons (m m1 : String) (k : ℚ) (rest : List (String × ℚ)) :
    reportsM ((m1, k) :: rest) m = ((m1 == m && decide (0 < k)) || reportsM rest m) := by
  unfold reportsM
  simp

theorem kphRowFold_spec (h : ℚ) (ps : List (String × ℚ)) (acc : KAcc) (m : String)
    (hnd : (ps.map Prod.fst).Nodup) :
    (((kphRowFold h ps acc).kills_sum.lookup m).getD 0
        = ((acc.kills_sum.lookup m).getD 0) + rowKills ps m) ∧
    (((kphRowFold h ps acc).hours_sum.lookup m).getD 0
        = ((acc.hours_sum.lookup m).getD 0) + (if reportsM ps m then h else 0)) ∧
    ((kphRowFold h ps acc).kills_sum.lookup m = none ↔
        acc.kills_sum.lookup m = none ∧ reportsM ps m = false) ∧
    ((kphRowFold h ps acc).hours_sum.lookup m = none ↔
        acc.hours_sum.lookup m = none ∧ reportsM ps m = false) := by
  induction ps generalizing acc with
  | nil => simp [kphRowFold, rowKills, reportsM]
  | cons p rest ih =>
    obtain ⟨m1, k⟩ := p
    have hcons : m1 ∉ (rest.map Prod.fst) ∧ (rest.map Prod.fst).Nodup := by
      simpa [List.nodup_cons] using hnd
    have hnd2 := hcons.2
    by_cases hk : k ≤ 0
    · have hck : decide (0 < k) = false := by simpa using not_lt.mpr hk
      have hskip : (m1 == m && decide (0 < k)) = false := by simp [hck]
      rw [kphRowFold, if_pos hk, rowKills_cons_skip m m1 k rest hskip]
      have hrp : reportsM ((m1, k) :: rest) m = reportsM rest m := by
        rw [reportsM_cons, hskip]
        simp
      rw [hrp]
      exact ih acc hnd2
    · have hkpos : 0 < k := not_le.mp hk
      have hck : decide (0 < k) = true := by simpa using hkpos
      rw [kphRowFold, if_neg hk]
      by_cases hmm : m1 = m
      · subst hmm
        have hnotin : m1 ∉ rest.map Prod.fst := hcons.1
        have hrk0 : rowKills rest m1 = 0 := rowKills_of_not_mem hnotin
        have hrp0 : reportsM rest m1 = false := reportsM_of_not_mem hnotin
        have hrk : rowKills ((m1, k) :: rest) m1 = k := by
          rw [rowKills_cons_self m1 k rest hkpos, hrk0, add_zero]
        have hrp : reportsM ((m1, k) :: rest) m1 = true := by
          rw [reportsM_cons]
          simp [hck]
        obtain ⟨ik, ihh, in1, in2⟩ :=
          ih ⟨addQ m1 k acc.kills_sum, addQ m1 h acc.hours_sum⟩ hnd2
        refine ⟨?_, ?_, ?_, ?_⟩
        · rw [ik, hrk, hrk0, add_zero]
          show ((addQ m1 k acc.kills_sum).lookup m1).getD 0 = _
          rw [lookup_addQ, if_pos rfl]
          simp
        · rw [ihh, hrp, hrp0]
          show ((addQ m1 h acc.hours_sum).lookup m1).getD 0 + _ = _
          rw [lookup_addQ, if_pos rfl]
          simp
        · rw [in1, hrp]
          show (addQ m1 k acc.kills_sum).lookup m1 = none ∧ _ ↔ _
          rw [lookup_addQ, if_pos rfl]
          simp
        · rw [in2, hrp]
          show (addQ m1 h acc.hours_sum).lookup m1 = none ∧ _ ↔ _
          rw [lookup_addQ, if_pos rfl]
          simp
      · have hb : (m1 == m) = false := beq_eq_false_iff_ne.mpr hmm
        have hskip : (m1 == m && decide (0 < k)) = false := by simp [hb]
        have hrk : rowKills ((m1, k) :: rest) m = rowKills rest m :=
          rowKills_cons_skip m m1 k rest hskip
        have hrp : reportsM ((m1, k) :: rest) m = reportsM rest m := by
          rw [reportsM_cons, hskip]
          simp
        obtain ⟨ik, ihh, in1, in2⟩ :=
          ih ⟨addQ m1 k acc.kills_sum, addQ m1 h acc.hours_sum⟩ hnd2
        have e1 : (addQ m1 k acc.kills_sum).lookup m = acc.kills_sum.lookup m := by
          rw [lookup_addQ, if_neg (fun hc => hmm hc.symm)]
        have e2 : (addQ m1 h acc.hours_sum).lookup m = acc.hours_sum.lookup m := by
          rw [lookup_addQ, if_neg (fun hc => hmm hc.symm)]
        refine ⟨?_, ?_, ?_, ?_⟩
        · rw [ik, hrk]
          show ((addQ m1 k acc.kills_sum).lookup m).getD 0 + _ = _
          rw [e1]
        · rw [ihh, hrp]
          show ((addQ m1 h acc.hours_sum).lookup m).getD 0 + _ = _
          rw [e2]
        · rw [in1, hrp]
          show (addQ m1 k acc.kills_sum).lookup m = none ∧ _ ↔ _
          rw [e1]
        · rw [in2, hrp]
          show (addQ m1 h acc.hours_sum).lookup m = none ∧ _ ↔ _
          rw [e2]

theorem kphFold_spec (rows : List KRow) (acc : KAcc) (m : String)
    (hnd : ∀ r ∈ rows, (r.kills.map Prod.fst).Nodup) :
    (((kphFold rows acc).kills_sum.lookup m).getD 0
        = ((acc.kills_sum.lookup m).getD 0) + kSum rows m) ∧
    (((kphFold rows acc).hours_sum.lookup m).getD 0
        = ((acc.hours_sum.lookup m).getD 0) + hSum rows m) ∧
    ((kphFold rows acc).kills_sum.lookup m = none ↔
        acc.kills_sum.lookup m = none ∧ contrib rows m = false) ∧
    ((kphFold rows acc).hours_sum.lookup m = none ↔
        acc.hours_sum.lookup m = none ∧ contrib rows m = false) := by
  induction rows generalizing acc with
  | nil => simp [kphFold, kSum, hSum, contrib]
  | cons r rest ih =>
    have hndr : (r.kills.map Prod.fst).Nodup := hnd r (List.mem_cons_self r rest)
    have hndrest : ∀ q ∈ rest, (q.kills.map Prod.fst).Nodup :=
      fun q hq => hnd q (List.mem_cons_of_mem r hq)
    by_cases hh : row_hours_fallback r ≤ 0
    · have hnotpos : ¬ 0 < row_hours_fallback r := not_lt.mpr hh
      have hks : kSum (r :: rest) m = kSum rest m := by
        simp [kSum, hnotpos]
      have hhs : hSum (r :: rest) m = hSum rest m := by
        simp [hSum, hnotpos]
      have hcb : contrib (r :: rest) m = contrib rest m := by
        simp [contrib, hnotpos]
      rw [kphFold, if_pos hh, hks, hhs, hcb]
      exact ih acc hndrest
    · have hpos : 0 < row_hours_fallback r := not_le.mp hh
      have hks : kSum (r :: rest) m = rowKills r.kills m + kSum rest m := by
        simp [kSum, hpos]
      have hhs : hSum (r :: rest) m
          = (if reportsM r.kills m then row_hours_fallback r else 0) + hSum rest m := by
        simp only [hSum, List.map_cons, List.sum_cons, hpos, true_and]
      have hcb : contrib (r :: rest) m = (reportsM r.kills m || contrib rest m) := by
        simp [contrib, hpos]
      obtain ⟨rk, rh, rn1, rn2⟩ := kphRowFold_spec (row_hours_fallback r) r.kills acc m hndr
      obtain ⟨ik, ihh, in1, in2⟩ := ih (kphRowFold (row_hours_fallback r) r.kills acc) hndrest
      rw [kphFold, if_neg hh]
      refine ⟨?_, ?_, ?_, ?_⟩
      · rw [ik, rk, hks]
        ring
      · rw [ihh, rh, hhs]
        ring
      · rw [in1, rn1, hcb]
        constructor
        · rintro ⟨⟨h1, h2⟩, h3⟩
          exact ⟨h1, by simp [h2, h3]⟩
        · rintro ⟨h1, h2⟩
          simp only [Bool.or_eq_false_iff] at h2
          exact ⟨⟨h1, h2.1⟩, h2.2⟩
      · rw [in2, rn2, hcb]
        constructor
        · rintro ⟨⟨h1, h2⟩, h3⟩
          exact ⟨h1, by simp [h2, h3]⟩
        · rintro ⟨h1, h2⟩
          simp only [Bool.or_eq_false_iff] at h2
          exact ⟨⟨h1, h2.1⟩, h2.2⟩

theorem hSum_nonneg (rows : List KRow) (m : String) : 0 ≤ hSum rows m := by
  induction rows with
  | nil => simp [hSum]
  | cons r rest ih =>
    simp only [hSum, List.map_cons, List.sum_cons] at ih ⊢
    have h1 : (0 : ℚ) ≤
        (if 0 < row_hours_fallback r ∧ reportsM r.kills m = true
         then row_hours_fallback r else 0) := by
      split
      · next hc => exact le_of_lt hc.1
      · exact le_refl 0
    linarith

theorem hSum_eq_zero_iff (rows : List KRow) (m : String) :
    hSum rows m = 0 ↔ contrib rows m = false := by
  induction rows with
  | nil => simp [hSum, contrib]
  | cons r rest ih =>
    simp only [hSum, List.map_cons, List.sum_cons, contrib, List.any_cons] at ih ⊢
    have hrest := hSum_nonneg rest m
    simp only [hSum] at hrest
    constructor
    · intro h0
      have h1 : (0 : ℚ) ≤
          (if 0 < row_hours_fallback r ∧ reportsM r.kills m = true
           then row_hours_fallback r else 0) := by
        split
        · next hc => exact le_of_lt hc.1
        · exact le_refl 0
      have hterm :
          (if 0 < row_hours_fallback r ∧ reportsM r.kills m = true
           then row_hours_fallback r else 0) = 0 := by linarith
      have hsum0 : (List.map (fun q =>
          if 0 < row_hours_fallback q ∧ reportsM q.kills m = true
          then row_hours_fallback q else 0) rest).sum = 0 := by linarith
      have hcr : (decide (0 < row_hours_fallback r) && reportsM r.kills m) = false := by
        by_cases hc1 : 0 < row_hours_fallback r
        · by_cases hc2 : reportsM r.kills m = true
          · rw [if_pos ⟨hc1, hc2⟩] at hterm
            exact absurd hterm (ne_of_gt hc1)
          · have hf : reportsM r.kills m = false := by simpa using hc2
            simp [hf]
        · simp [hc1]
      simp [hcr, ih.mp hsum0]
    · intro hfalse
      simp only [Bool.or_eq_false_iff] at hfalse
      have h2 := ih.mpr hfalse.2
      have hterm :
          (if 0 < row_hours_fallback r ∧ reportsM r.kills m = true
           then row_hours_fallback r else 0) = 0 := by
        by_cases hc : 0 < row_hours_fallback r ∧ reportsM r.kills m = true
        · exfalso
          have := hfalse.1
          simp [hc.1, hc.2] at this
        · exact if_neg hc
      rw [hterm, h2, add_zero]

theorem lookup_kph_map (hs ks : List (String × ℚ)) (m : String) :
    (ks.map (fun p =>
      (p.1, if 0 < ((hs.lookup p.1).getD 0)
            then pyRound 4 (p.2 / ((hs.lookup p.1).getD 0)) else 0))).lookup m
    = (ks.lookup m).map (fun v =>
        if 0 < ((hs.lookup m).getD 0)
        then pyRound 4 (v / ((hs.lookup m).getD 0)) else 0) := by
  induction ks with
  | nil => simp
  | cons p rest ih =>
    obtain ⟨k, v⟩ := p
    by_cases hmk : m = k
    · subst hmk
      simp [List.lookup]
    · have hb : (m == k) = false := beq_eq_false_iff_ne.mpr hmk
      simp [List.lookup, hb, ih]

end KphLemmas

/-- A row reporting 10 Rat kills over two hours. -/
def krRat1 : KRow :=
  { duration_sec := some 7200, hoursCol := none, session_start := none,
    session_end := none, session_length := none, kills := [("Rat", 10)] }

/-- A row reporting 5 Rat kills over one hour. -/
def krRat2 : KRow :=
  { duration_sec := some 3600, hoursCol := none, session_start := none,
    session_end := none, session_length := none, kills := [("Rat", 5)] }

/-- C6 (confirmed): per monster, the KPH dict accumulates the positive kill
counts and, only for rows with positive hours that report a positive count
of that monster, the row's hours; the output value is
`kills_sum / hours_sum` rounded to 4 decimals; a monster with zero
accumulated hours is absent from the output; and the concrete Rat example
(10 kills over 2 hours plus 5 kills over 1 hour) yields exactly 5.
The no-duplicate-keys hypothesis holds for every Python dict. -/
theorem C6_monsters_kph :
    (∀ (rows : List KRow) (m : String), (∀ r ∈ rows, (r.kills.map Prod.fst).Nodup) →
      ((compute_monsters_kph_for_df (some rows)).lookup m = none ↔ hSum rows m = 0) ∧
      (hSum rows m ≠ 0 →
        (compute_monsters_kph_for_df (some rows)).lookup m
          = some (pyRound 4 (kSum rows m / hSum rows m)))) ∧
    (compute_monsters_kph_for_df (some [krRat1, krRat2])).lookup "Rat" = some 5 := by
  constructor
  · intro rows m hnd
    cases rows with
    | nil =>
      constructor
      · simp [compute_monsters_kph_for_df, hSum]
      · intro hne
        exact absurd (by simp [hSum]) hne
    | cons r rest =>
      obtain ⟨fk, fh, fn1, fn2⟩ := kphFold_spec (r :: rest) ⟨[], []⟩ m hnd
      simp only [List.lookup_nil, Option.getD_none, zero_add, true_and] at fk fh fn1 fn2
      have hcompute :
          (compute_monsters_kph_for_df (some (r :: rest))).lookup m
            = ((kphFold (r :: rest) ⟨[], []⟩).kills_sum.lookup m).map (fun v =>
                if 0 < (((kphFold (r :: rest) ⟨[], []⟩).hours_sum.lookup m).getD 0)
                then pyRound 4 (v / (((kphFold (r :: rest) ⟨[], []⟩).hours_sum.lookup m).getD 0))
                else 0) := by
        unfold compute_monsters_kph_for_df
        simp only [List.isEmpty_cons, Bool.false_eq_true, if_false]
        exact lookup_kph_map _ _ m
      constructor
      · rw [hcompute]
        rw [Option.map_eq_none', fn1, ← hSum_eq_zero_iff]
      · intro hne
        have hcb : contrib (r :: rest) m = true := by
          rcases Bool.eq_false_or_eq_true (contrib (r :: rest) m) with ht | hf
          · exact ht
          · exact absurd ((hSum_eq_zero_iff _ _).mpr hf) hne
        have hpos : 0 < hSum (r :: rest) m :=
          lt_of_le_of_ne (hSum_nonneg _ _) (Ne.symm hne)
        rw [hcompute]
        cases hlk : (kphFold (r :: rest) ⟨[], []⟩).kills_sum.lookup m with
        | none =>
          rw [fn1] at hlk
          rw [hlk] at hcb
          exact absurd hcb (by simp)
        | some v =>
          have hv : v = kSum (r :: rest) m := by
            rw [hlk] at fk
            simpa using fk
          rw [Option.map_some', hv, fh, if_pos hpos]
  · show (compute_monsters_kph_for_df (some [krRat1, krRat2])).lookup "Rat" = some 5
    norm_num [compute_monsters_kph_for_df, kphFold, kphRowFold, krRat1, krRat2,
      row_hours_fallback, rowHoursStep2, rowHoursStep3, rowHoursStep4, addQ,
      List.lookup, pyRound, roundHalfEven]

/-- A single row reporting 7 Bat kills over one hour. -/
def krC6w : KRow :=
  { duration_sec := some 3600, hoursCol := none, session_start := none,
    session_end := none, session_length := none, kills := [("Bat", 7)] }

/-- Witness for `C6_monsters_kph` on a one-row input. -/
theorem C6_monsters_kph_witness :
    ((compute_monsters_kph_for_df (some [krC6w])).lookup "Bat" = none ↔
      hSum [krC6w] "Bat" = 0) ∧
    (hSum [krC6w] "Bat" ≠ 0 →
      (compute_monsters_kph_for_df (some [krC6w])).lookup "Bat"
        = some (pyRound 4 (kSum [krC6w] "Bat" / hSum [krC6w] "Bat"))) :=
  C6_monsters_kph.1 [krC6w] "Bat" (by decide)




/-! Embedding of `ta_core/repository.py`: upload dedup and keep-pending import. -/

/-- Parse outcome of one uploaded byte payload: `json.loads` failure, a JSON
array (whose `some` elements are objects), a single JSON object, or another
JSON value (the invalid-format case). -/
inductive ParseResult (α : Type) where
  | failed
  | jlist (items : List (Option α))
  | jdict (r : α)
  | jother
deriving DecidableEq, Repr

/-- The persisted repository state: the record store and the hash ledger.
SHA-256 hashing is modelled by the payload bytes themselves — like the real
hash it is deterministic, and the model treats it as collision-free. -/
structure RepoState (α : Type) where
  store : List α
  hashes : List (List Nat)
deriving DecidableEq, Repr

/-- The result of `add_uploaded_files`: the persisted state and the
`(added_records, skipped_files)` counters it returns. -/
structure UploadOut (α : Type) where
  state : RepoState α
  added : Nat
  skipped : Nat
deriving DecidableEq, Repr

/-- The per-file loop of `add_uploaded_files` (lines 88-124), carrying the
in-memory hash set, the batch-seen set, the records to append and the
skipped count. -/
def uploadLoop {α : Type} (parse : List Nat → ParseResult α) :
    List (List Nat) → List (List Nat) → List (List Nat) → List α → Nat →
    (List (List Nat) × List α × Nat)
  | [], hashesMem, _batchSeen, toAppend, skipped => (hashesMem, toAppend, skipped)
  | f :: rest, hashesMem, batchSeen, toAppend, skipped =>
    if f ∈ hashesMem ∨ f ∈ batchSeen then
      uploadLoop parse rest hashesMem batchSeen toAppend (skipped + 1)
    else
      match parse f with
      | .failed => uploadLoop parse rest hashesMem batchSeen toAppend (skipped + 1)
      | .jlist items =>
        uploadLoop parse rest (hashesMem ++ [f]) (batchSeen ++ [f])
          (toAppend ++ items.filterMap id) skipped
      | .jdict r =>
        uploadLoop parse rest (hashesMem ++ [f]) (batchSeen ++ [f]) (toAppend ++ [r]) skipped
      | .jother => uploadLoop parse rest hashesMem batchSeen toAppend (skipped + 1)

/-- Embedding of `repository.add_uploaded_files`: the store and the hash
ledger are persisted only when at least one record was appended (lines
126-131); otherwise the in-memory hash set is discarded with the call. -/
def add_uploaded_files {α : Type} (parse : List Nat → ParseResult α) (st : RepoState α)
    (files : List (List Nat)) : UploadOut α :=
  let res := uploadLoop parse files st.hashes [] [] 0
  let added := res.2.1.length
  if 0 < added then ⟨⟨st.store ++ res.2.1, res.1⟩, added, res.2.2⟩
  else ⟨st, added, res.2.2⟩

/-- A parse table under which the payload `[0]` decodes to the empty JSON
array `[]` (a well-formed upload that contributes no records). -/
def parseC2 : List Nat → ParseResult Nat :=
  fun b => if b = [0] then .jlist [] else .failed

/-- The empty repository. -/
def repoC2 : RepoState Nat := ⟨[], []⟩

/-- C2: as frozen the claim is false on one conjunct: a payload that decodes
to zero records (here the JSON text `[]`, payload `[0]`) is accepted but —
since `add_uploaded_files` persists the hash ledger only when records were
appended — leaves no ledger entry, so uploading the same bytes again in a
later call is re-parsed rather than skipped: the second call reports
`skipped = 0`, not a duplicate.  The store still never grows. -/
theorem C2_dedup_counterexample :
    (add_uploaded_files parseC2
        (add_uploaded_files parseC2 repoC2 [[0]]).state [[0]]).skipped = 0 ∧
    (add_uploaded_files parseC2
        (add_uploaded_files parseC2 repoC2 [[0]]).state [[0]]).state.store.length
      = (add_uploaded_files parseC2 repoC2 [[0]]).state.store.length := by
  decide

/-- C2 (amended): uploading the same byte payload twice — in one batch or in
two successive calls — leaves the repository state exactly as after one
upload: no records are appended and no hash is added, so the effective
record count never doubles, and the second call reports `added = 0`.
Within one batch the duplicate occurrence is always counted: the batch with
the payload twice reports exactly one more skip than the batch with it once.
Across calls, the duplicate is counted as skipped whenever the first upload
left the hash in the ledger; a payload yielding zero records leaves no
ledger trace (the ledger is persisted only when records were added) and is
re-parsed on re-upload, still appending nothing. -/
theorem C2_dedup_amended {α : Type} (parse : List Nat → ParseResult α)
    (st : RepoState α) (p : List Nat) :
    (add_uploaded_files parse st [p, p]).state = (add_uploaded_files parse st [p]).state ∧
    ((add_uploaded_files parse (add_uploaded_files parse st [p]).state [p]).state
      = (add_uploaded_files parse st [p]).state) ∧
    ((add_uploaded_files parse st [p, p]).skipped
      = (add_uploaded_files parse st [p]).skipped + 1) ∧
    ((add_uploaded_files parse (add_uploaded_files parse st [p]).state [p]).added = 0) ∧
    (p ∈ (add_uploaded_files parse st [p]).state.hashes →
      (add_uploaded_files parse (add_uploaded_files parse st [p]).state [p]).skipped = 1) := by
  by_cases hmem : p ∈ st.hashes
  · simp [add_uploaded_files, uploadLoop, hmem]
  · cases hp : parse p with
    | failed => simp [add_uploaded_files, uploadLoop, hmem, hp]
    | jother => simp [add_uploaded_files, uploadLoop, hmem, hp]
    | jdict r => simp [add_uploaded_files, uploadLoop, hmem, hp]
    | jlist items =>
      by_cases hl : items.filterMap id = []
      · simp [add_uploaded_files, uploadLoop, hmem, hp, hl]
      · simp [add_uploaded_files, uploadLoop, hmem, hp, hl, List.length_pos]

/-- A parse table under which the payload `[1]` decodes to one JSON object
(so its upload appends a record and persists its hash). -/
def parseC2w : List Nat → ParseResult Nat :=
  fun b => if b = [1] then .jdict 7 else .failed

/-- Witness for `C2_dedup_amended` at a record-bearing payload: the
duplicate in the batch adds one skip, and the later re-upload — whose hash
the first call persisted — appends nothing and is counted as skipped. -/
theorem C2_dedup_amended_witness :
    ((add_uploaded_files parseC2w repoC2 [[1], [1]]).skipped
      = (add_uploaded_files parseC2w repoC2 [[1]]).skipped + 1) ∧
    ((add_uploaded_files parseC2w
        (add_uploaded_files parseC2w repoC2 [[1]]).state [[1]]).added = 0) ∧
    ((add_uploaded_files parseC2w
        (add_uploaded_files parseC2w repoC2 [[1]]).state [[1]]).skipped = 1) :=
  ⟨(C2_dedup_amended parseC2w repoC2 [1]).2.2.1,
   (C2_dedup_amended parseC2w repoC2 [1]).2.2.2.1,
   (C2_dedup_amended parseC2w repoC2 [1]).2.2.2.2 (by decide)⟩

/-! Embedding of the legacy backup import of `ta_core/repository.py`
(`_key_from_item` and `import_backup_replace_processed`, lines 173-233). -/

/-- Python `s.replace(",", "")`. -/
def removeCommas (s : String) : String :=
  ⟨s.toList.filter (fun c => !(c == ','))⟩

/-- Embedding of `repository._key_from_item` applied to a stored raw item:
the stable hunt key `(session_start, session_end, xp_gain)`.  A plain
`dict.get` chain — no alias probing and no skipping of `None`/empty. -/
def key_from_item (d : RawRecord) : String × String × Int :=
  let o_start := pyStr ((d.lookup "Session start").getD ((d.lookup "session_start").getD (.vstr "")))
  let o_end := pyStr ((d.lookup "Session end").getD ((d.lookup "session_end").getD (.vstr "")))
  let xp_raw := removeCommas (pyStr ((d.lookup "XP Gain").getD ((d.lookup "xp_gain").getD (.vint 0))))
  (o_start, o_end, (pyIntOfString? xp_raw).getD 0)

/-- `repository._key_from_item` applied to a normalized row (the
`cur_pending.iterrows()` call sites): the row carries no `Session start`
style keys, so the snake-case fields are read. -/
def key_from_row (row : Row) : String × String × Int :=
  let xp_raw := removeCommas (pyStr (.vint row.xp_gain))
  (row.session_start, row.session_end, (pyIntOfString? xp_raw).getD 0)

/-- Python dict insert/update for `backup_by_key`: an existing key is
updated in place, a new key appended. -/
def dictUpsert (l : List ((String × String × Int) × RawRecord))
    (k : String × String × Int) (v : RawRecord) :
    List ((String × String × Int) × RawRecord) :=
  match l with
  | [] => [(k, v)]
  | (k1, v1) :: rest => if k1 = k then (k1, v) :: rest else (k1, v1) :: dictUpsert rest k v

/-- The legacy JSON snapshot shape consumed by the import (an object with a
`store` list and a `hashes` list; a malformed snapshot raises before any
state is touched and is outside this typed model). -/
structure LegacySnapshot where
  store : List RawRecord
  hashes : List String
deriving DecidableEq, Repr

/-- Embedding of `repository.import_backup_replace_processed`: keep the
current store's rows whose stable key is currently pending, re-normalize the
snapshot's store and keep only its processed rows (rebuilt from their
`source_raw`, deduplicated by key), and replace the ledger with the
snapshot's.  `none` models a normalization exception. -/
def import_backup_replace_processed (pts : String → Option Int)
    (snapshot : LegacySnapshot) (current_store : List RawRecord) :
    Option (List RawRecord × List String) := do
  let cur ← normalize_records pts current_store
  let pending_keys := cur.2.map key_from_row
  let bn ← normalize_records pts snapshot.store
  let backup_processed :=
    if bn.1.isEmpty then ([] : List RawRecord)
    else
      let bbk := bn.1.foldl
        (fun acc row => dictUpsert acc (key_from_item row.source_raw) row.source_raw) []
      let bbk := if bbk = [] then
          snapshot.store.foldl (fun acc it => dictUpsert acc (key_from_item it) it) []
        else bbk
      bbk.map Prod.snd
  let new_store :=
    (current_store.filter (fun it => key_from_item it ∈ pending_keys)) ++ backup_processed
  pure (new_store, snapshot.hashes)

theorem mkRow_source_raw (pts : String → Option Int) (r : RawRecord) (a b c d e f : Int) :
    (mkRow pts r a b c d e f).source_raw = r := rfl

theorem normalizeRecord_source_raw {pts : String → Option Int} {r : RawRecord} {row : Row}
    (h : normalizeRecord pts r = some row) : row.source_raw = r := by
  obtain ⟨xp, rxp, sup, lt, b0, br, _, _, _, _, _, _, hrow⟩ := normalizeRecord_inv h
  subst hrow
  rfl

theorem normalize_records_singleton_inv {pts : String → Option Int} {B : RawRecord}
    {rowB : Row} (hB : normalize_records pts [B] = some ([rowB], [])) :
    normalizeRecord pts B = some rowB := by
  cases hnb : normalizeRecord pts B with
  | none =>
    unfold normalize_records at hB
    rw [hnb] at hB
    simp [bind] at hB
  | some row0 =>
    unfold normalize_records at hB
    rw [hnb] at hB
    simp only [bind, Option.some_bind, normalize_records, Option.bind_eq_bind] at hB
    cases hpd : rowIsPending row0 <;> simp [hpd, pure] at hB
    · rw [hB]

/-- C7 (confirmed): for a current store holding one pending record P and one
processed record A, and a snapshot holding one processed record B, the
keep-pending import keeps P verbatim (identified by the stable key), drops A,
adds B, and replaces the ledger with the snapshot's: the new store is
exactly [P, B]. -/
theorem C7_keep_pending_restore (pts : String → Option Int)
    (P A B : RawRecord) (rowP rowA rowB : Row) (hs : List String)
    (hPA : normalize_records pts [P, A] = some ([rowA], [rowP]))
    (hkey : key_from_row rowP = key_from_item P)
    (hkeyA : key_from_item A ≠ key_from_item P)
    (hB : normalize_records pts [B] = some ([rowB], [])) :
    import_backup_replace_processed pts ⟨[B], hs⟩ [P, A] = some ([P, B], hs) := by
  have hsrcB : rowB.source_raw = B :=
    normalizeRecord_source_raw (normalize_records_singleton_inv hB)
  unfold import_backup_replace_processed
  rw [hPA]
  simp only [bind, Option.some_bind]
  rw [hB]
  simp only [Option.some_bind]
  simp [hkey, hkeyA, hsrcB, dictUpsert, pure, List.filter_cons]

/-- A pending current record (no zone). -/
def recC7P : RawRecord :=
  [("vocation", .vstr "Druid"), ("mode", .vstr "Solo"),
   ("XP Gain", .vint 10), ("Raw XP Gain", .vint 10),
   ("session_start", .vstr "s1"), ("session_end", .vstr "e1"), ("duration", .vint 60)]

/-- A processed current record. -/
def recC7A : RawRecord :=
  [("vocation", .vstr "Knight"), ("mode", .vstr "Solo"), ("zona", .vstr "ZA"),
   ("XP Gain", .vint 20), ("Raw XP Gain", .vint 20),
   ("session_start", .vstr "s2"), ("session_end", .vstr "e2"), ("duration", .vint 120)]

/-- A processed snapshot record. -/
def recC7B : RawRecord :=
  [("vocation", .vstr "Paladin"), ("mode", .vstr "Solo"), ("zona", .vstr "ZB"),
   ("XP Gain", .vint 30), ("Raw XP Gain", .vint 30),
   ("session_start", .vstr "s3"), ("session_end", .vstr "e3"), ("duration", .vint 180)]

/-- The canonical rows of the three records above. -/
def rowC7P : Row := mkRow ptsNone recC7P 10 10 0 0 0 0

def rowC7A : Row := mkRow ptsNone recC7A 20 20 0 0 0 0

def rowC7B : Row := mkRow ptsNone recC7B 30 30 0 0 0 0

/-- Witness for `C7_keep_pending_restore` at concrete records. -/
theorem C7_keep_pending_restore_witness :
    import_backup_replace_processed ptsNone ⟨[recC7B], ["h1"]⟩ [recC7P, recC7A]
      = some ([recC7P, recC7B], ["h1"]) :=
  C7_keep_pending_restore ptsNone recC7P recC7A recC7B rowC7P rowC7A rowC7B ["h1"]
    (by decide) (by decide) (by decide) (by decide)

/-! Embedding of `ta_core/services/backup.py` (export and v2-zip import).
File contents are modelled as text; a missing file is `none`. -/

/-- The four persisted files of the data directory. -/
structure FsState where
  store_jsonl : Option String
  hashes_json : Option String
  user_data_json : Option String
  monster_csv : Option String
deriving DecidableEq, Repr

/-- A v2 backup zip: one entry per persisted file (the manifest entry is
write-only — the import never reads it — and carries no state). -/
structure BackupZip where
  store_jsonl : String
  hashes_json : String
  user_data_json : String
  monster_csv : String
deriving DecidableEq, Repr

/-- Embedding of `backup.export_backup_bytes`: every listed file is read
verbatim into the zip, a missing file as an empty entry (lines 83-89). -/
def export_backup_bytes (σ : FsState) : BackupZip :=
  { store_jsonl := σ.store_jsonl.getD ""
    hashes_json := σ.hashes_json.getD ""
    user_data_json := σ.user_data_json.getD ""
    monster_csv := σ.monster_csv.getD "" }

/-- Embedding of the zip branch of `backup.import_backup_replace_processed`:
every listed file is overwritten with the zip entry (lines 106-118),
whatever the previous state was. -/
def import_full (snap : BackupZip) (_σ : FsState) : FsState :=
  { store_jsonl := some snap.store_jsonl
    hashes_json := some snap.hashes_json
    user_data_json := some snap.user_data_json
    monster_csv := some snap.monster_csv }

/-- Python `str.splitlines`-style line split at newline characters, as file
iteration does in `load_store`. -/
def splitNL : List Char → List (List Char)
  | [] => [[]]
  | c :: rest =>
    let r := splitNL rest
    if c == '\n' then [] :: r
    else
      match r with
      | y :: ys => (c :: y) :: ys
      | [] => [[c]]

/-- Embedding of `repository.load_store` over a file state: each line is
stripped, blank lines are skipped, unparseable lines are skipped
(`except: pass`); a missing file reads as empty (`ensure_data_dirs` creates
it).  `parseLine` models `json.loads` of one line returning a record. -/
def load_store {α : Type} (parseLine : String → Option α) (σ : FsState) : List α :=
  let text := σ.store_jsonl.getD ""
  (splitNL text.toList).filterMap (fun l =>
    let l2 := pyStripChars l
    if l2 = [] then none else parseLine ⟨l2⟩)

/-- Embedding of `repository.load_hashes` over a file state: a missing file
is created as the empty JSON list; a present file is parsed by `parseHashes`
(modelling `json.load` restricted to lists — a non-list or a parse failure
yields the empty ledger). -/
def load_hashes (parseHashes : String → Option (List String)) (σ : FsState) : List String :=
  match σ.hashes_json with
  | none => []
  | some c => (parseHashes c).getD []

/-- C8 (confirmed): a full import of the snapshot produced by export
restores byte-identical store and ledger files, so the loaded store and the
loaded hash ledger — under any line parser, and any ledger parser that
fails on the empty string as `json.load` does — are observably identical to
the exported ones, whatever state the import is applied over. -/
theorem C8_backup_roundtrip {α : Type} (parseLine : String → Option α)
    (parseHashes : String → Option (List String)) (σ σ2 : FsState)
    (hph : parseHashes "" = none) :
    load_store parseLine (import_full (export_backup_bytes σ) σ2) = load_store parseLine σ ∧
    load_hashes parseHashes (import_full (export_backup_bytes σ) σ2)
      = load_hashes parseHashes σ := by
  constructor
  · cases σ.store_jsonl <;> rfl
  · cases hc : σ.hashes_json with
    | none =>
      simp [load_hashes, import_full, export_backup_bytes, hc, hph]
    | some c =>
      simp [load_hashes, import_full, export_backup_bytes, hc]

/-- A tiny concrete state: one stored line and one ledger entry. -/
def fsC8 : FsState :=
  { store_jsonl := some "r1", hashes_json := some "[h1]",
    user_data_json := none, monster_csv := none }

/-- A line parser that accepts only the line `r1`. -/
def parseLineC8 : String → Option Nat := fun l => if l = "r1" then some 1 else none

/-- A ledger parser that accepts only the text `[h1]` (and fails on `""`). -/
def parseHashesC8 : String → Option (List String) :=
  fun c => if c = "[h1]" then some ["h1"] else none

/-- Witness for `C8_backup_roundtrip` at the concrete state `fsC8`. -/
theorem C8_backup_roundtrip_witness :
    load_store parseLineC8 (import_full (export_backup_bytes fsC8) fsC8) =
      load_store parseLineC8 fsC8 ∧
    load_hashes parseHashesC8 (import_full (export_backup_bytes fsC8) fsC8) =
      load_hashes parseHashesC8 fsC8 :=
  C8_backup_roundtrip parseLineC8 parseHashesC8 fsC8 fsC8 (by decide)

/-! Embedding of `ta_core/bestiary.py`. -/

/-- The fixed difficulty-to-required-kills table. -/
def DIFF_TO_REQ : List (String × Nat) :=
  [("Harmless", 25), ("Trivial", 250), ("Easy", 500),
   ("Medium", 1000), ("Hard", 2500), ("Challenging", 5000)]

/-- Python `str.capitalize()` (ASCII): first character upper-cased, the rest
lower-cased. -/
def pyCapitalize (s : String) : String :=
  match s.data with
  | [] => ""
  | c :: rest => ⟨c.toUpper :: rest.map Char.toLower⟩

/-- Embedding of `bestiary.normalize_diff`: falsy input gives `None`,
otherwise a case-insensitive match against the six canonical names (the set
`VALID_DIFFS` has at most one lower-case match, so iteration order is
immaterial). -/
def normalize_diff (diff : Option String) : Option String :=
  match diff with
  | none => none
  | some s =>
    if s = "" then none
    else
      let d := pyCapitalize (pyStrip s)
      (DIFF_TO_REQ.map Prod.fst).find? (fun v => pyLower v == pyLower d)

/-- Embedding of `bestiary.required_kills_for_diff`. -/
def required_kills_for_diff (diff : Option String) : Option Nat :=
  match normalize_diff diff with
  | some d => DIFF_TO_REQ.lookup d
  | none => none

/-- Embedding of `bestiary.compute_eta`. -/
def compute_eta (required : Option Nat) (current : Int) (kph : ℚ) : Option ℚ :=
  match required with
  | none => none
  | some req =>
    if kph ≤ 0 then none
    else
      let remain : Int := max 0 ((req : Int) - max 0 current)
      if 0 < remain then some ((remain : ℚ) / kph) else some 0

/-- The `BestiaryInfo` dataclass. -/
structure BestiaryInfo where
  monster : String
  difficulty : Option String
  required_kills : Option Nat
  current_kills : Int
  kph : ℚ
  hours_to_complete : Option ℚ
deriving DecidableEq, Repr

/-- Embedding of `bestiary.make_bestiary_row` (the Python `current_kills`
parameter defaults to 0 at call sites that omit it). -/
def make_bestiary_row (monster : String) (kph : ℚ) (difficulty : Option String)
    (current_kills : Int) : BestiaryInfo :=
  let req := required_kills_for_diff difficulty
  let eta := compute_eta req current_kills kph
  { monster := monster
    difficulty := normalize_diff difficulty
    required_kills := req
    current_kills := current_kills
    kph := kph
    hours_to_complete := eta }

/-- C9 (confirmed): the ETA is null when the difficulty fails the
case-insensitive match against the six canonical names or when `kph <= 0`;
otherwise it is `max(0, required - max(0, current_kills)) / kph`, and 0 when
nothing remains; difficulty "Medium" with no progress at 50 kph gives 20
hours, and at 0 kph the ETA is null. -/
theorem C9_bestiary_eta :
    (∀ (mon : String) (kph : ℚ) (diff : Option String) (ck : Int),
      normalize_diff diff = none →
      (make_bestiary_row mon kph diff ck).hours_to_complete = none) ∧
    (∀ (mon : String) (kph : ℚ) (diff : Option String) (ck : Int),
      kph ≤ 0 → (make_bestiary_row mon kph diff ck).hours_to_complete = none) ∧
    (∀ (mon : String) (kph : ℚ) (diff : Option String) (ck : Int) (req : Nat),
      required_kills_for_diff diff = some req → 0 < kph →
      (make_bestiary_row mon kph diff ck).hours_to_complete =
        (if 0 < max 0 ((req : Int) - max 0 ck)
         then some (((max 0 ((req : Int) - max 0 ck) : Int) : ℚ) / kph)
         else some 0)) ∧
    (make_bestiary_row "X" 50 (some "Medium") 0).hours_to_complete = some 20 ∧
    (make_bestiary_row "X" 0 (some "Medium") 0).hours_to_complete = none := by
  have hmed : required_kills_for_diff (some "Medium") = some 1000 := by decide
  refine ⟨?_, ?_, ?_, ?_, ?_⟩
  · intro mon kph diff ck hnd
    simp [make_bestiary_row, required_kills_for_diff, hnd, compute_eta]
  · intro mon kph diff ck hk
    cases hreq : required_kills_for_diff diff with
    | none => simp [make_bestiary_row, hreq, compute_eta]
    | some req => simp [make_bestiary_row, hreq, compute_eta, hk]
  · intro mon kph diff ck req hreq hk
    simp [make_bestiary_row, hreq, compute_eta, not_le.mpr hk]
  · simp only [make_bestiary_row, hmed, compute_eta]
    norm_num
  · simp [make_bestiary_row, hmed, compute_eta]

/-- Witness for `C9_bestiary_eta`: the formula clause at difficulty
"harmless" (lower-case spelling), 5 current kills and 4 kph. -/
theorem C9_bestiary_eta_witness :
    (make_bestiary_row "Y" 4 (some "harmless") 5).hours_to_complete =
      (if 0 < max 0 (((25 : Nat) : Int) - max 0 (5 : Int))
       then some (((max 0 (((25 : Nat) : Int) - max 0 (5 : Int)) : Int) : ℚ) / 4)
       else some 0) :=
  C9_bestiary_eta.2.2.1 "Y" 4 (some "harmless") 5 25 (by decide) (by norm_num)

end TA
